import Mathlib

/-!
# Verification of the xhs_project orchestration core

Shallow embedding, in Lean 4, of the parts of the repository that the
specification's claims are about:

* `task_scheduler.py` — `TaskScheduler.start_service`, `stop_service`,
  `shutdown_all`, `run_loop`;
* `browser_manager.py` — `BrowserManager.ensure_browser`, `new_page`;
* `data_storage.py` — `DataStorage.insert_or_update_item`;
* `services/xhs_collector.py` — keyword normalization in `run`, `_parse_int`;
* `services/xhs_listener.py` — rule-group matching in `_monitor_item`.

Asynchronous effects (awaiting a cancelled task, the Playwright probes,
opening a page) are embedded as explicit environment parameters that record
what the awaited operation would have done; everything else is direct state
passing.  Machine integers do not overflow in any of the modelled paths, so
they are embedded as `Int`/`Nat`; Python `float` arithmetic inside
`_parse_int` is embedded as exact rational arithmetic (`ℚ`), which agrees
with IEEE double evaluation on every input considered here.
-/

namespace XhsProject

/-! ## Task scheduler state (`task_scheduler.py`)

`TaskScheduler` keeps `self.services : Dict[str, Any]` (fixed after
`_register_services`) and `self.tasks : Dict[str, asyncio.Task]`.  A task
handle is embedded as an identifier plus a "done" flag (`asyncio.Task.done`).
The `tasks` dict is an association list updated by key, so it can hold at
most one entry per name by construction; we carry the key-`Nodup` invariant
explicitly. -/

structure TaskHandle where
  id : Nat
  done : Bool
deriving DecidableEq, Repr

structure SchedState where
  services : List String
  tasks : List (String × TaskHandle)
  nextId : Nat
deriving DecidableEq, Repr

namespace SchedState

/-- Keys of the `tasks` dict. -/
def taskNames (s : SchedState) : List String := s.tasks.map Prod.fst

/-- `self.tasks.get(name)` — association-list lookup. -/
def lookupTask (s : SchedState) (name : String) : Option TaskHandle :=
  (s.tasks.find? (fun p => p.fst = name)).map Prod.snd

/-- `self.tasks[name] = task`: replace the entry for `name` if present,
otherwise add one. -/
def storeTask (s : SchedState) (name : String) (h : TaskHandle) : SchedState :=
  if s.tasks.any (fun p => p.fst = name) then
    { s with tasks := s.tasks.map (fun p => if p.fst = name then (name, h) else p) }
  else
    { s with tasks := s.tasks ++ [(name, h)] }

/-- `self.tasks.pop(name, None)`. -/
def popTask (s : SchedState) (name : String) : SchedState :=
  { s with tasks := s.tasks.filter (fun p => ¬ p.fst = name) }

/-- Number of non-terminated run handles recorded for `name`. -/
def activeCount (s : SchedState) (name : String) : Nat :=
  (s.tasks.filter (fun p => p.fst = name ∧ p.snd.done = false)).length

/-- `asyncio.create_task` consumed a fresh handle id. -/
def nextIdBump (s : SchedState) : SchedState := { s with nextId := s.nextId + 1 }

end SchedState

/-- `TaskScheduler.start_service` (task_scheduler.py:42-50):

```
svc = self.services.get(name)
if svc is None: return False
if name in self.tasks and not self.tasks[name].done(): return True
task = asyncio.create_task(svc.run(**kwargs))
self.tasks[name] = task
return True
```

`asyncio.create_task` is embedded as minting a fresh handle id. -/
def startService (s : SchedState) (name : String) : Bool × SchedState :=
  if ¬ s.services.contains name then (false, s)
  else
    match s.lookupTask name with
    | some h =>
        if h.done = false then (true, s)
        else (true, (s.storeTask name ⟨s.nextId, false⟩).nextIdBump)
    | none => (true, (s.storeTask name ⟨s.nextId, false⟩).nextIdBump)

/-- What awaiting the just-cancelled task raises; `raisesCancelled` stands
for `asyncio.CancelledError`, which derives from `BaseException` (not
`Exception`) on the Python versions this repository targets (≥ 3.8). -/
inductive AwaitOutcome
  | normal
  | raisesException
  | raisesCancelled
deriving DecidableEq, Repr

/-- Observable steps of `stop_service`, recorded in order. -/
inductive StopAction
  | coopStop (name : String)
  | cancel (id : Nat)
  | popHandle (name : String)
deriving DecidableEq, Repr

/-- `TaskScheduler.stop_service` (task_scheduler.py:52-63):

```
svc = self.services.get(name)
if svc is not None: await svc.stop()
t = self.tasks.get(name)
if t is not None:
    t.cancel()
    try: await t
    except Exception: pass
    self.tasks.pop(name, None)
```

Returns the ordered action trace, the scheduler state after the call, and
a flag that is `true` when an exception escapes the call.  `except
Exception` does not catch `asyncio.CancelledError` (a `BaseException` on
Python ≥ 3.8), so the `raisesCancelled` outcome escapes the handler; the
`pop` statement after the `try` block is then never reached and the handle
stays recorded. -/
def stopService (s : SchedState) (name : String) (outcome : AwaitOutcome) :
    List StopAction × SchedState × Bool :=
  let acts := if s.services.contains name then [StopAction.coopStop name] else []
  match s.lookupTask name with
  | none => (acts, s, false)
  | some h =>
      match outcome with
      | .raisesCancelled => (acts ++ [.cancel h.id], s, true)
      | _ => (acts ++ [.cancel h.id, .popHandle name], s.popTask name, false)

/-- External scheduler event: a running task terminates on its own
(`asyncio.Task.done()` starts returning `True`). -/
def taskFinishes (s : SchedState) (name : String) : SchedState :=
  { s with tasks := s.tasks.map (fun p => if p.fst = name then (p.fst, ⟨p.snd.id, true⟩) else p) }

/-- Initial scheduler state after `_register_services`: the three service
names are registered and no run handle exists. -/
def initSched : SchedState :=
  { services := ["XHSCollectorService", "XHSCommenterService", "XHSListenerService"]
    tasks := []
    nextId := 0 }

/-- States reachable from the initial scheduler state by any sequence of
`start_service` / `stop_service` calls and spontaneous task terminations. -/
inductive Reachable : SchedState → Prop
  | init : Reachable initSched
  | start (s : SchedState) (name : String) :
      Reachable s → Reachable (startService s name).2
  | stop (s : SchedState) (name : String) (outcome : AwaitOutcome) :
      Reachable s → Reachable (stopService s name outcome).2.1
  | finish (s : SchedState) (name : String) :
      Reachable s → Reachable (taskFinishes s name)

/-- Structural invariant of the scheduler: the task map has one entry per
name, and every recorded name is a registered service. -/
def SchedInv (s : SchedState) : Prop :=
  s.taskNames.Nodup ∧ ∀ n ∈ s.taskNames, s.services.contains n = true

/-! ## Supervisory loop (`task_scheduler.py`, `run_loop`)

```
async def run_loop(self):
    while True:
        await asyncio.sleep(1)
        if not self.license_client.status().get("valid"):
            await self.shutdown_all()
```

The loop is embedded over a finite prefix of the observation trace: the
list of validity booleans returned by `self.license_client.status()` at
successive iterations.  Each iteration emits a `sleep` event and, exactly
when the polled status is invalid, a `shutdownAllCall` event. -/

inductive LoopEvent
  | sleep
  | shutdownAllCall
deriving DecidableEq, Repr

/-- Events emitted by `run_loop` across the iterations whose polled
validity values are `trace`. -/
def runLoopEvents : List Bool → List LoopEvent
  | [] => []
  | v :: rest =>
      [LoopEvent.sleep] ++ (if v = false then [LoopEvent.shutdownAllCall] else [])
        ++ runLoopEvents rest

/-- Number of times `run_loop` invokes `shutdown_all` across `trace`. -/
def runLoopShutdownCalls (trace : List Bool) : Nat :=
  (runLoopEvents trace).countP (fun e => e = LoopEvent.shutdownAllCall)

/-- Number of validity→invalidity transitions along `trace`, starting from
previous observation `prev` (this is what "exactly once per invalidity
transition" counts). -/
def invalidTransitions (prev : Bool) : List Bool → Nat
  | [] => 0
  | v :: rest => (if prev = true ∧ v = false then 1 else 0) + invalidTransitions v rest

/-! ## Browser manager (`browser_manager.py`)

The Playwright context handle is embedded as an identity (`Nat`); the
`nextId` counter mints fresh identities, so recreating a context is
observable as a changed identity.  `ensure_browser`'s liveness probe —
`getattr(self._context, "is_closed", None)` followed by either calling it
or touching `self._context.pages` — is embedded as an environment value
describing what the probe does. -/

structure BMState where
  context : Option Nat
  nextId : Nat
deriving DecidableEq, Repr

/-- Behaviour of the liveness probe inside `ensure_browser`:
`isClosedReturns b` — the context has a callable `is_closed` returning `b`;
`isClosedRaises` — calling `is_closed()` raises;
`pagesOk` — no `is_closed` attribute, and reading `self._context.pages`
succeeds; `pagesRaises` — no `is_closed` attribute, and reading
`self._context.pages` raises. -/
inductive Probe
  | isClosedReturns (b : Bool)
  | isClosedRaises
  | pagesOk
  | pagesRaises
deriving DecidableEq, Repr

/-- `BrowserManager.ensure_browser` (browser_manager.py:72-93):

```
async with self._lock:
    if self._context is not None:
        is_closed = getattr(self._context, "is_closed", None)
        try:
            if callable(is_closed) and not is_closed():
                return
            if is_closed is None:
                _ = self._context.pages
                return
        except Exception:
            pass
    await self._reset_context()
    self._pw = await async_playwright().start()
    self._context = await self._pw.chromium.launch_persistent_context(...)
```

The early `return`s keep the state unchanged; every other path (no
context, probe reports closed, or the probe itself raises — the
`except Exception: pass` falls through) resets the old context and
launches a fresh one. -/
def ensureBrowser (s : BMState) (probe : Probe) : BMState :=
  match s.context with
  | some _ =>
      match probe with
      | .isClosedReturns false => s
      | .pagesOk => s
      | _ => { context := some s.nextId, nextId := s.nextId + 1 }
  | none => { context := some s.nextId, nextId := s.nextId + 1 }

/-- Outcome of `self._context.new_page()` + `page.goto(...)` in one
iteration of `new_page`'s retry loop. -/
inductive OpenResult
  | opened (id : Nat)
  | targetClosed
  | otherError
deriving DecidableEq, Repr

/-- Environment seen by one iteration of `new_page`'s `for _ in range(2)`
loop: the unclosed pages the context currently reports (an empty list also
covers the `except` that replaces a failed enumeration with `[]`), and
what opening a fresh page would do. -/
structure AttemptEnv where
  pages : List Nat
  openResult : OpenResult
deriving DecidableEq, Repr

/-- Observable steps of `BrowserManager.new_page`. -/
inductive PageAction
  | ensureSession
  | reusePage (id : Nat)
  | openAttempt
  | resetSession
deriving DecidableEq, Repr

/-- Result of `BrowserManager.new_page`: a usable page, the fatal
`RuntimeError("浏览器已关闭，无法新建标签页")`, or a non-`TargetClosedError`
exception escaping. -/
inductive PageResult
  | page (id : Nat)
  | fatal
  | propagate
deriving DecidableEq, Repr

/-- One iteration of the `for _ in range(2)` body of
`BrowserManager.new_page` (browser_manager.py:95-123).  `none` means the
iteration ended in the `except TargetClosedError` arm (after
`_reset_context`), falling through to the next iteration. -/
def newPageAttempt (env : AttemptEnv) : List PageAction × Option PageResult :=
  match env.pages with
  | p :: _ => ([.ensureSession, .reusePage p], some (.page p))
  | [] =>
      match env.openResult with
      | .opened id => ([.ensureSession, .openAttempt], some (.page id))
      | .otherError => ([.ensureSession, .openAttempt], some .propagate)
      | .targetClosed => ([.ensureSession, .openAttempt, .resetSession], none)

/-- `BrowserManager.new_page`: two loop iterations at most, then
`raise RuntimeError(...)`. -/
def newPage (e₁ e₂ : AttemptEnv) : List PageAction × PageResult :=
  match newPageAttempt e₁ with
  | (a₁, some r) => (a₁, r)
  | (a₁, none) =>
      match newPageAttempt e₂ with
      | (a₂, some r) => (a₁ ++ a₂, r)
      | (a₂, none) => (a₁ ++ a₂, .fatal)

/-- Number of page-open attempts in a `new_page` action trace. -/
def openAttempts (acts : List PageAction) : Nat :=
  acts.countP (fun a => a = PageAction.openAttempt)

/-! ## Data storage (`data_storage.py`)

A row of the `xhs_items` table (the `id INTEGER PRIMARY KEY AUTOINCREMENT`
column is left implicit; `item_url` carries a `UNIQUE` constraint).  The
table itself is the ordered list of its rows. -/

structure ItemRow where
  source : String
  item_url : String
  title : String
  keyword : String
  publish_time : String
  publish_ts : Int
  like_count : Int
  collect_count : Int
  comment_count : Int
  type : String
  collected_time : Int
  comment_status : String
  last_comment_time : Int
deriving DecidableEq, Repr

/-- The `item` dict passed to `insert_or_update_item`, with the `.get`
defaults of data_storage.py:89-99 already applied. -/
structure ItemInput where
  source : String := "xhs"
  item_url : String
  title : String := ""
  keyword : String := ""
  publish_time : String := ""
  publish_ts : Int := 0
  like_count : Int := 0
  collect_count : Int := 0
  comment_count : Int := 0
  type : String := "note"
deriving DecidableEq, Repr

/-- `DataStorage.insert_or_update_item` (data_storage.py:67-103):

```
INSERT INTO xhs_items (source, item_url, title, keyword, publish_time,
  publish_ts, like_count, collect_count, comment_count, type, collected_time)
VALUES (...)
ON CONFLICT(item_url) DO UPDATE SET
  title = excluded.title, keyword = excluded.keyword,
  publish_time = excluded.publish_time, publish_ts = excluded.publish_ts,
  like_count = excluded.like_count, collect_count = excluded.collect_count,
  comment_count = excluded.comment_count, type = excluded.type,
  collected_time = excluded.collected_time
```

If a row with the same `item_url` exists (by `UNIQUE(item_url)` there is
at most one), that row is updated in place with the `SET` list — note
`source`, `comment_status` and `last_comment_time` are not in the `SET`
list and keep their old values; otherwise a fresh row is appended with the
column defaults `comment_status = ''` and `last_comment_time = 0`.
`now = int(time.time())` is passed explicitly. -/
def insert_or_update_item (table : List ItemRow) (item : ItemInput) (now : Int) :
    List ItemRow :=
  if table.any (fun r => r.item_url = item.item_url) then
    table.map (fun r =>
      if r.item_url = item.item_url then
        { r with
            title := item.title
            keyword := item.keyword
            publish_time := item.publish_time
            publish_ts := item.publish_ts
            like_count := item.like_count
            collect_count := item.collect_count
            comment_count := item.comment_count
            type := item.type
            collected_time := now }
      else r)
  else
    table ++ [{ source := item.source
                item_url := item.item_url
                title := item.title
                keyword := item.keyword
                publish_time := item.publish_time
                publish_ts := item.publish_ts
                like_count := item.like_count
                collect_count := item.collect_count
                comment_count := item.comment_count
                type := item.type
                collected_time := now
                comment_status := ""
                last_comment_time := 0 }]

/-- Rows of `table` whose `item_url` equals `url`. -/
def rowsForUrl (table : List ItemRow) (url : String) : List ItemRow :=
  table.filter (fun r => r.item_url = url)

/-- The `UNIQUE(item_url)` constraint of the `xhs_items` schema. -/
def UrlsUnique (table : List ItemRow) : Prop :=
  (table.map ItemRow.item_url).Nodup

/-! ## Python string primitives

The Python string operations the collector uses — `str.replace` with a
one-character pattern, argument-free `str.split`, `str.strip`,
`str.lower`, `in`, `float`, `int` — are embedded as structural functions
over `List Char` (a Lean `String` is its list of characters). -/

/-- `s.replace(old, new)` for a one-character `old` (every `replace` in
the source has a one-character pattern): each occurrence of the character
is substituted. -/
def pyReplaceChar (old : Char) (new : List Char) : List Char → List Char
  | [] => []
  | c :: rest => (if c = old then new else [c]) ++ pyReplaceChar old new rest

/-- Argument-free `str.split()`: split on runs of whitespace, dropping
empty fields.  `cur` accumulates the current field in reverse. -/
def pySplitWsAux (cur : List Char) : List Char → List (List Char)
  | [] => if cur.isEmpty then [] else [cur.reverse]
  | c :: rest =>
      if c.isWhitespace then
        if cur.isEmpty then pySplitWsAux [] rest
        else cur.reverse :: pySplitWsAux [] rest
      else pySplitWsAux (c :: cur) rest

def pySplitWs (l : List Char) : List (List Char) := pySplitWsAux [] l

def dropLeadingWs : List Char → List Char
  | [] => []
  | c :: rest => if c.isWhitespace then dropLeadingWs rest else c :: rest

/-- `str.strip()`: drop leading and trailing whitespace. -/
def pyStrip (l : List Char) : List Char :=
  (dropLeadingWs (dropLeadingWs l.reverse)).reverse

/-- `str.lower()`, per character (ASCII case mapping; it agrees with
Python's on every character appearing in the inputs considered here). -/
def pyLower (l : List Char) : List Char := l.map Char.toLower

/-- `str.split(sep)` for a one-character separator, keeping empty
fields (as Python does for an explicit separator). -/
def splitOnChar (sep : Char) : List Char → List (List Char)
  | [] => [[]]
  | c :: rest =>
      let r := splitOnChar sep rest
      if c = sep then [] :: r
      else
        match r with
        | [] => [[c]]
        | h :: t => (c :: h) :: t

/-- `int(s)` for a non-empty all-digit string; `none` otherwise. -/
def digitsToNat? (l : List Char) : Option Nat :=
  if l.isEmpty then none
  else if l.all Char.isDigit then
    some (l.foldl (fun n c => n * 10 + (c.toNat - '0'.toNat)) 0)
  else none

/-! ## Collector keyword normalization (`services/xhs_collector.py`, `run`)

```
if isinstance(keywords, str):
    kws = [k for k in keywords.replace("，", " ").replace(",", " ").split() if k]
else:
    kws = [k for k in (keywords or []) if isinstance(k, str) and k.strip()]
```

Argument-free `split()` already drops empty fields, so the trailing
`if k` filter is kept but is a no-op. -/

def normalizeKeywordString (keywords : String) : List String :=
  ((pySplitWs (pyReplaceChar ',' [' ']
      (pyReplaceChar '，' [' '] keywords.toList))).map String.mk).filter
    (fun k => ¬ k = "")

/-- The `list` branch keeps each element unchanged when its stripped form
is non-empty (`isinstance(k, str)` is enforced by the type). -/
def normalizeKeywordList (keywords : List String) : List String :=
  keywords.filter (fun k => ¬ (pyStrip k.toList).isEmpty)

/-! ## Collector numeric shorthand (`services/xhs_collector.py`, `_parse_int`)

```
def _parse_int(text: str) -> int:
    t = (text or "").strip().lower()
    t = t.replace("+", "").replace(",", "")
    if "万" in t or "w" in t:
        num = "".join(c for c in t if (c.isdigit() or c == ".")) or "0"
        return int(float(num) * 10000)
    if "k" in t:
        num = "".join(c for c in t if (c.isdigit() or c == ".")) or "0"
        return int(float(num) * 1000)
    digits = "".join(c for c in t if c.isdigit())
    return int(digits) if digits else 0
```

Python `float` on a digits-and-dots string is embedded as exact rational
parsing (`pyFloat`), returning `none` where `float(...)` would raise
`ValueError` (more than one dot, or no digits at all); on every input the
claims evaluate, IEEE double evaluation and exact rational evaluation of
`float(num) * 10000` / `* 1000` round-trip to the same integer.  `int()`
on a non-negative value truncates toward zero, i.e. takes the floor.
`_parse_int` returns `none` exactly when the Python function raises. -/

/-- `"".join(c for c in t if (c.isdigit() or c == "."))`. -/
def digitsAndDots (t : List Char) : List Char :=
  t.filter (fun c => c.isDigit ∨ c = '.')

/-- `"".join(c for c in t if c.isdigit())`. -/
def onlyDigits (t : List Char) : List Char :=
  t.filter (fun c => c.isDigit)

/-- `float(s)` for a string of digits and dots, represented exactly as a
decimal fixed-point pair `(x, k)` denoting the rational `x / 10^k` (so
`"1.2"` becomes `(12, 1)`); `none` where `float` raises `ValueError`
(more than one dot, or a bare dot).  On every input the claims evaluate,
IEEE double evaluation of `float(num)` followed by `* 10000` / `* 1000`
and `int()` rounds to the same integer as this exact value. -/
def pyFloat (s : List Char) : Option (Nat × Nat) :=
  match splitOnChar '.' s with
  | [a] => (digitsToNat? a).map (fun n => (n, 0))
  | [a, b] =>
      if a.isEmpty ∧ b.isEmpty then none
      else
        match (if a.isEmpty then some 0 else digitsToNat? a),
              (if b.isEmpty then some 0 else digitsToNat? b) with
        | some x, some y => some (x * 10 ^ b.length + y, b.length)
        | _, _ => none
  | _ => none

/-- `int(v * scale)` for the non-negative decimal fixed-point value
`v = x / 10^k`: `int()` truncates toward zero, which on a non-negative
value is the floor, i.e. `Nat` division (`floorDiv_rat` below proves this
representation agrees with the rational floor). -/
def intOfScaled (p : Nat × Nat) (scale : Nat) : Nat :=
  p.1 * scale / 10 ^ p.2

/-- `_parse_int` itself. -/
def _parse_int (text : String) : Option Int :=
  let t := pyLower (pyStrip text.toList)
  let t := pyReplaceChar ',' [] (pyReplaceChar '+' [] t)
  if t.any (fun c => c = '万') ∨ t.any (fun c => c = 'w') then
    let num := digitsAndDots t
    let num := if num.isEmpty then ['0'] else num
    (pyFloat num).map (fun p => (intOfScaled p 10000 : Int))
  else if t.any (fun c => c = 'k') then
    let num := digitsAndDots t
    let num := if num.isEmpty then ['0'] else num
    (pyFloat num).map (fun p => (intOfScaled p 1000 : Int))
  else
    let digits := onlyDigits t
    if digits.isEmpty then some 0
    else (digitsToNat? digits).map (fun n => (n : Int))

/-! ## Listener rule matching (`services/xhs_listener.py`, `_monitor_item`)

```
for rec in new_comments:
    matched_keyword = ""
    reply_text = ""
    for group in rule_groups:
        kws = group.get("keywords") or []
        reply = group.get("reply", "")
        for kw in kws:
            if kw and kw in rec["comment_text"]:
                matched_keyword = kw
                reply_text = reply
                break
        if matched_keyword:
            break
    if matched_keyword and reply_text:
        try:
            await self._reply_to_comment(url, rec, reply_text, matched_keyword)
        except ...
```
-/

structure RuleGroup where
  keywords : List String
  reply : String
deriving DecidableEq, Repr

/-- `kw` occurs as a contiguous subsequence of `l`. -/
def listContainsSub (kw : List Char) : List Char → Bool
  | [] => kw.isEmpty
  | c :: rest => kw.isPrefixOf (c :: rest) || listContainsSub kw rest

/-- Python's `kw in text` substring test. -/
def strContains (text kw : String) : Bool :=
  listContainsSub kw.toList text.toList

/-- Inner loop: the first keyword of the group that is non-empty
(`if kw`) and a substring of the comment text. -/
def findKeyword (text : String) : List String → Option String
  | [] => none
  | kw :: rest =>
      if ¬ kw = "" ∧ strContains text kw then some kw else findKeyword text rest

/-- Outer loop: rule groups evaluated in caller-supplied order; the first
group with a matching keyword supplies `(matched_keyword, reply_text)`. -/
def matchRules (text : String) : List RuleGroup → Option (String × String)
  | [] => none
  | g :: rest =>
      match findKeyword text g.keywords with
      | some kw => some (kw, g.reply)
      | none => matchRules text rest

/-- The reply attempts issued for one comment: one `_reply_to_comment`
call when a keyword matched and the reply template is non-empty
(`if matched_keyword and reply_text`), otherwise none. -/
def replyAttempts (text : String) (groups : List RuleGroup) : List (String × String) :=
  match matchRules text groups with
  | some (kw, reply) => if ¬ reply = "" then [(kw, reply)] else []
  | none => []

/-! ## Combined system state (scheduler + entitlement) for the
noninterference claim: `LicenseClient.status()["valid"]`
(license_client.py:121-127) is part of the process state, but
`TaskScheduler.start_service` never reads it. -/

structure SystemState where
  sched : SchedState
  licenseValid : Bool
deriving DecidableEq, Repr

/-- `start_service` lifted to the combined state: the body is exactly
`startService` on the scheduler component; the entitlement component is
neither read nor written. -/
def startServiceSys (sys : SystemState) (name : String) : Bool × SystemState :=
  let r := startService sys.sched name
  (r.1, { sys with sched := r.2 })

/-! ## Scheduler invariant lemmas -/

theorem map_fst_of_fst_preserved (l : List (String × TaskHandle))
    (f : String × TaskHandle → String × TaskHandle) (hf : ∀ p, (f p).1 = p.1) :
    (l.map f).map Prod.fst = l.map Prod.fst := by
  induction l with
  | nil => rfl
  | cons a t ih => simp [List.map_cons, hf a, ih]

theorem taskNames_storeTask_pos (s : SchedState) (name : String) (h : TaskHandle)
    (hmem : s.tasks.any (fun p => p.fst = name) = true) :
    (s.storeTask name h).taskNames = s.taskNames := by
  unfold SchedState.storeTask
  rw [if_pos hmem]
  exact map_fst_of_fst_preserved s.tasks _ (fun p => by by_cases hp : p.fst = name <;> simp [hp])

theorem taskNames_storeTask_neg (s : SchedState) (name : String) (h : TaskHandle)
    (hmem : ¬ s.tasks.any (fun p => p.fst = name) = true) :
    (s.storeTask name h).taskNames = s.taskNames ++ [name] := by
  unfold SchedState.storeTask
  rw [if_neg hmem]
  simp [SchedState.taskNames]

theorem not_mem_taskNames_of_not_any (s : SchedState) (name : String)
    (hmem : ¬ s.tasks.any (fun p => p.fst = name) = true) :
    name ∉ s.taskNames := by
  intro hmem'
  rcases List.mem_map.mp hmem' with ⟨p, hp, hfst⟩
  exact hmem (List.any_eq_true.mpr ⟨p, hp, by simp [hfst]⟩)

theorem nodup_taskNames_storeTask (s : SchedState) (name : String) (h : TaskHandle)
    (hnd : s.taskNames.Nodup) : (s.storeTask name h).taskNames.Nodup := by
  by_cases hmem : s.tasks.any (fun p => p.fst = name) = true
  · rw [taskNames_storeTask_pos s name h hmem]; exact hnd
  · rw [taskNames_storeTask_neg s name h hmem]
    have hname := not_mem_taskNames_of_not_any s name hmem
    simp [List.nodup_append, hnd, hname]

theorem taskNames_popTask_sublist (s : SchedState) (name : String) :
    (s.popTask name).taskNames.Sublist s.taskNames :=
  (s.tasks.filter_sublist).map Prod.fst

theorem taskNames_taskFinishes (s : SchedState) (name : String) :
    (taskFinishes s name).taskNames = s.taskNames :=
  map_fst_of_fst_preserved s.tasks _ (fun p => by by_cases hp : p.fst = name <;> simp [hp])

theorem services_startService (s : SchedState) (name : String) :
    (startService s name).2.services = s.services := by
  unfold startService
  by_cases hc : ¬ s.services.contains name = true
  · rw [if_pos hc]
  · rw [if_neg hc]
    cases hl : s.lookupTask name with
    | none => simp [SchedState.storeTask, SchedState.nextIdBump]; split <;> rfl
    | some h =>
        by_cases hd : h.done = false
        · simp [hd]
        · simp [hd, SchedState.storeTask, SchedState.nextIdBump]
          split <;> rfl

theorem services_storeTask (s : SchedState) (name : String) (h : TaskHandle) :
    (s.storeTask name h).services = s.services := by
  unfold SchedState.storeTask
  split <;> rfl

theorem schedInv_startService (s : SchedState) (name : String)
    (hInv : SchedInv s) : SchedInv (startService s name).2 := by
  unfold startService
  by_cases hc : ¬ s.services.contains name = true
  · rw [if_pos hc]; exact hInv
  · rw [if_neg hc]
    push_neg at hc
    have hsvc : ((s.storeTask name ⟨s.nextId, false⟩).nextIdBump).services = s.services := by
      rw [show ((s.storeTask name ⟨s.nextId, false⟩).nextIdBump).services
            = (s.storeTask name ⟨s.nextId, false⟩).services from rfl,
          services_storeTask]
    have hstore : SchedInv ((s.storeTask name ⟨s.nextId, false⟩).nextIdBump) := by
      constructor
      · exact nodup_taskNames_storeTask s name _ hInv.1
      · intro n hn
        rw [hsvc]
        by_cases hmem : s.tasks.any (fun p => p.fst = name) = true
        · rw [show ((s.storeTask name ⟨s.nextId, false⟩).nextIdBump).taskNames
                = (s.storeTask name ⟨s.nextId, false⟩).taskNames from rfl,
              taskNames_storeTask_pos s name _ hmem] at hn
          exact hInv.2 n hn
        · rw [show ((s.storeTask name ⟨s.nextId, false⟩).nextIdBump).taskNames
                = (s.storeTask name ⟨s.nextId, false⟩).taskNames from rfl,
              taskNames_storeTask_neg s name _ hmem] at hn
          rcases List.mem_append.mp hn with hn | hn
          · exact hInv.2 n hn
          · simp at hn
            subst hn
            exact hc
    cases hl : s.lookupTask name with
    | none => exact hstore
    | some h => by_cases hd : h.done = false <;> simp [hd] <;> [exact hInv; exact hstore]

theorem schedInv_popTask (s : SchedState) (name : String)
    (hInv : SchedInv s) : SchedInv (s.popTask name) := by
  constructor
  · exact hInv.1.sublist (taskNames_popTask_sublist s name)
  · intro n hn
    exact hInv.2 n ((taskNames_popTask_sublist s name).subset hn)

theorem stopService_state_cases (s : SchedState) (name : String) (o : AwaitOutcome) :
    (stopService s name o).2.1 = s ∨ (stopService s name o).2.1 = s.popTask name := by
  unfold stopService
  cases s.lookupTask name with
  | none => left; rfl
  | some h => cases o <;> simp

theorem schedInv_stopService (s : SchedState) (name : String) (o : AwaitOutcome)
    (hInv : SchedInv s) : SchedInv (stopService s name o).2.1 := by
  rcases stopService_state_cases s name o with h | h <;> rw [h]
  · exact hInv
  · exact schedInv_popTask s name hInv

theorem schedInv_taskFinishes (s : SchedState) (name : String)
    (hInv : SchedInv s) : SchedInv (taskFinishes s name) := by
  constructor
  · rw [taskNames_taskFinishes]; exact hInv.1
  · intro n hn
    rw [taskNames_taskFinishes] at hn
    exact hInv.2 n hn

/-- Every reachable scheduler state satisfies the structural invariant. -/
theorem schedInv_reachable (s : SchedState) (hr : Reachable s) : SchedInv s := by
  induction hr with
  | init => constructor <;> simp [initSched, SchedState.taskNames]
  | start s name _ ih => exact schedInv_startService s name ih
  | stop s name o _ ih => exact schedInv_stopService s name o ih
  | finish s name _ ih => exact schedInv_taskFinishes s name ih

theorem filter_active_le_one (l : List (String × TaskHandle)) (name : String)
    (hnd : (l.map Prod.fst).Nodup) :
    (l.filter (fun p => p.fst = name ∧ p.snd.done = false)).length ≤ 1 := by
  induction l with
  | nil => simp
  | cons a t ih =>
    rw [List.map_cons, List.nodup_cons] at hnd
    rw [List.filter_cons]
    by_cases hcond : (a.fst = name ∧ a.snd.done = false)
    · have hnil : t.filter (fun p => p.fst = name ∧ p.snd.done = false) = [] := by
        rw [List.filter_eq_nil_iff]
        intro p hp
        simp only [decide_eq_true_eq, not_and]
        intro hpc
        exfalso
        apply hnd.1
        have hmem : p.1 ∈ List.map Prod.fst t := List.mem_map_of_mem Prod.fst hp
        rwa [hpc, ← hcond.1] at hmem
      rw [if_pos (decide_eq_true hcond), hnil]
      simp
    · simp only [hcond, decide_eq_true_eq, if_neg]
      simpa [hcond] using ih hnd.2

theorem activeCount_le_one (s : SchedState) (name : String)
    (hnd : s.taskNames.Nodup) : s.activeCount name ≤ 1 :=
  filter_active_le_one s.tasks name hnd

theorem contains_of_lookupTask (s : SchedState) (name : String) (h : TaskHandle)
    (hInv : SchedInv s) (hl : s.lookupTask name = some h) :
    s.services.contains name = true := by
  unfold SchedState.lookupTask at hl
  cases hf : s.tasks.find? (fun p => p.fst = name) with
  | none => rw [hf] at hl; cases hl
  | some p =>
      have hmem := List.mem_of_find?_eq_some hf
      have hfst := List.find?_some hf
      simp only [decide_eq_true_eq] at hfst
      exact hInv.2 name (hfst ▸ List.mem_map_of_mem Prod.fst hmem)

theorem find?_update_self (l : List (String × TaskHandle)) (name : String) (h : TaskHandle)
    (hmem : l.any (fun p => p.fst = name) = true) :
    ((l.map (fun p => if p.fst = name then (name, h) else p)).find?
        (fun p => p.fst = name)) = some (name, h) := by
  induction l with
  | nil => simp at hmem
  | cons a t ih =>
      by_cases ha : a.fst = name
      · simp [ha]
      · rw [List.map_cons, if_neg ha,
            List.find?_cons_of_neg _ (by simp [ha])]
        apply ih
        rcases List.any_eq_true.mp hmem with ⟨p, hp, hpred⟩
        rcases List.mem_cons.mp hp with rfl | hp
        · simp only [decide_eq_true_eq] at hpred
          exact absurd hpred ha
        · exact List.any_eq_true.mpr ⟨p, hp, hpred⟩

theorem find?_append_self (l : List (String × TaskHandle)) (name : String) (h : TaskHandle)
    (hmem : ¬ l.any (fun p => p.fst = name) = true) :
    (l ++ [(name, h)]).find? (fun p => p.fst = name) = some (name, h) := by
  induction l with
  | nil => simp
  | cons a t ih =>
      have ha : ¬ a.fst = name := by
        intro ha
        exact hmem (List.any_eq_true.mpr ⟨a, List.mem_cons_self a t, by simp [ha]⟩)
      rw [List.cons_append, List.find?_cons_of_neg _ (by simp [ha])]
      apply ih
      intro hany
      rcases List.any_eq_true.mp hany with ⟨p, hp, hpred⟩
      exact hmem (List.any_eq_true.mpr ⟨p, List.mem_cons_of_mem a hp, hpred⟩)

theorem lookupTask_storeTask_self (s : SchedState) (name : String) (h : TaskHandle) :
    (s.storeTask name h).lookupTask name = some h := by
  unfold SchedState.storeTask SchedState.lookupTask
  by_cases hmem : s.tasks.any (fun p => p.fst = name) = true
  · rw [if_pos hmem]
    show ((s.tasks.map _).find? _).map Prod.snd = some h
    rw [find?_update_self s.tasks name h hmem]
    rfl
  · rw [if_neg hmem]
    show ((s.tasks ++ [(name, h)]).find? _).map Prod.snd = some h
    rw [find?_append_self s.tasks name h hmem]
    rfl

theorem nextId_storeTask (s : SchedState) (name : String) (h : TaskHandle) :
    (s.storeTask name h).nextId = s.nextId := by
  unfold SchedState.storeTask
  split <;> rfl

/-! ## Claim theorems: task scheduler -/

/-- C1: at most one non-terminated run handle per service name at any
reachable scheduler state, and `start_service` called while a previous
run of the name is still active returns `True` and leaves the state
unchanged — no second run handle is created. -/
theorem startService_while_active (s : SchedState) (name : String) (h : TaskHandle)
    (hr : Reachable s) (hl : s.lookupTask name = some h) (hact : h.done = false) :
    startService s name = (true, s) ∧ s.activeCount name ≤ 1 := by
  have hInv := schedInv_reachable s hr
  have hc := contains_of_lookupTask s name h hInv hl
  constructor
  · unfold startService
    rw [if_neg (not_not_intro hc), hl]
    simp [hact]
  · exact activeCount_le_one s name hInv.1

/-- Witness for C1: after starting the collector service from the initial
state, a second `start_service` of the same name returns `True` without
touching the task map, which holds exactly one active handle. -/
theorem startService_while_active_witness :
    startService (startService initSched "XHSCollectorService").2 "XHSCollectorService"
        = (true, (startService initSched "XHSCollectorService").2) ∧
      (startService initSched "XHSCollectorService").2.activeCount "XHSCollectorService" ≤ 1 :=
  startService_while_active (startService initSched "XHSCollectorService").2
    "XHSCollectorService" ⟨0, false⟩
    (Reachable.start initSched "XHSCollectorService" Reachable.init)
    (by decide) (by decide)

/-- C3 (code bug, failing input): stopping the collector service while
its recorded run handle is active and awaiting the cancelled task raises
`asyncio.CancelledError`.  The call performs the cooperative stop and the
cancellation, but the `except Exception` handler does not catch
`CancelledError` (a `BaseException` since Python 3.8): the error escapes
the call (final `true`) and the recorded handle is *not* cleared — the
task map still holds it — contradicting "the call never raises" and "the
recorded handle is cleared in every case". -/
theorem stopService_cancelledError_escapes :
    stopService { services := initSched.services,
                  tasks := [("XHSCollectorService", ⟨0, false⟩)],
                  nextId := 1 } "XHSCollectorService" AwaitOutcome.raisesCancelled
      = ([StopAction.coopStop "XHSCollectorService", StopAction.cancel 0],
         { services := initSched.services,
           tasks := [("XHSCollectorService", ⟨0, false⟩)],
           nextId := 1 },
         true) := by decide

/-- C10: `start_service` never reads the entitlement state.  For a
registered name with no active run, two invocations differing only in the
Entitlement Guard's validity both return `True`, produce identical
scheduler states, and both spawn a fresh run handle. -/
theorem startService_ignores_entitlement (sched : SchedState) (name : String) (v₁ v₂ : Bool)
    (hreg : sched.services.contains name = true)
    (hact : sched.lookupTask name = none ∨
      ∃ h, sched.lookupTask name = some h ∧ h.done = true) :
    (startServiceSys ⟨sched, v₁⟩ name).1 = true ∧
    (startServiceSys ⟨sched, v₂⟩ name).1 = true ∧
    (startServiceSys ⟨sched, v₁⟩ name).2.sched = (startServiceSys ⟨sched, v₂⟩ name).2.sched ∧
    (startServiceSys ⟨sched, v₁⟩ name).2.sched.lookupTask name = some ⟨sched.nextId, false⟩ ∧
    (startServiceSys ⟨sched, v₁⟩ name).2.sched.nextId = sched.nextId + 1 := by
  have hstart : startService sched name
      = (true, (sched.storeTask name ⟨sched.nextId, false⟩).nextIdBump) := by
    unfold startService
    rw [if_neg (not_not_intro hreg)]
    rcases hact with hnone | ⟨h, hsome, hdone⟩
    · rw [hnone]
    · rw [hsome]; simp [hdone]
  have hsys : ∀ v, startServiceSys ⟨sched, v⟩ name
      = (true, ⟨(sched.storeTask name ⟨sched.nextId, false⟩).nextIdBump, v⟩) := by
    intro v
    unfold startServiceSys
    rw [hstart]
  rw [hsys v₁, hsys v₂]
  refine ⟨rfl, rfl, rfl, ?_, ?_⟩
  · exact lookupTask_storeTask_self sched name ⟨sched.nextId, false⟩
  · show (sched.storeTask name ⟨sched.nextId, false⟩).nextId + 1 = sched.nextId + 1
    rw [nextId_storeTask]

/-- Witness for C10: starting the collector from the initial state under a
valid and under an invalid entitlement. -/
theorem startService_ignores_entitlement_witness :
    (startServiceSys ⟨initSched, true⟩ "XHSCollectorService").1 = true ∧
    (startServiceSys ⟨initSched, false⟩ "XHSCollectorService").1 = true ∧
    (startServiceSys ⟨initSched, true⟩ "XHSCollectorService").2.sched
      = (startServiceSys ⟨initSched, false⟩ "XHSCollectorService").2.sched ∧
    (startServiceSys ⟨initSched, true⟩ "XHSCollectorService").2.sched.lookupTask
        "XHSCollectorService" = some ⟨initSched.nextId, false⟩ ∧
    (startServiceSys ⟨initSched, true⟩ "XHSCollectorService").2.sched.nextId
      = initSched.nextId + 1 :=
  startService_ignores_entitlement initSched "XHSCollectorService" true false
    (by decide) (Or.inl (by decide))

/-! ## Claim theorems: supervisory loop -/

theorem runLoopShutdownCalls_cons (v : Bool) (rest : List Bool) :
    runLoopShutdownCalls (v :: rest)
      = (if v = false then 1 else 0) + runLoopShutdownCalls rest := by
  show (([LoopEvent.sleep] ++ (if v = false then [LoopEvent.shutdownAllCall] else [])
      ++ runLoopEvents rest).countP (fun e => e = LoopEvent.shutdownAllCall)) = _
  rw [List.countP_append, List.countP_append]
  by_cases hv : v = false <;> simp [hv, runLoopShutdownCalls]

/-- C2 counterexample: over two consecutive polls that both observe an
invalid status, `run_loop` invokes `shutdown_all` twice, although only one
validity→invalidity transition occurred — refuting "exactly once per
invalidity transition". -/
theorem runLoop_not_once_per_transition :
    ¬ runLoopShutdownCalls [false, false] = invalidTransitions true [false, false] := by
  decide

/-- C2 amended: `run_loop` invokes `shutdown_all` in exactly the
iterations whose polled status is invalid — so invalidity is acted on
within one poll interval, but the call repeats on every further poll while
the status stays invalid (at least once per invalidity transition, not
exactly once). -/
theorem runLoop_shutdown_every_invalid_poll (trace : List Bool) :
    runLoopShutdownCalls trace = (trace.filter (fun v => v = false)).length ∧
    ∀ prev, invalidTransitions prev trace ≤ runLoopShutdownCalls trace := by
  induction trace with
  | nil =>
      refine ⟨rfl, ?_⟩
      intro prev
      unfold invalidTransitions
      exact Nat.le_refl 0
  | cons v rest ih =>
      constructor
      · rw [runLoopShutdownCalls_cons, List.filter_cons]
        by_cases hv : v = false
        · simp [hv, ih.1]
          omega
        · simp [hv, ih.1]
      · intro prev
        rw [runLoopShutdownCalls_cons]
        unfold invalidTransitions
        have hrest := ih.2 v
        by_cases hv : v = false
        · subst hv
          by_cases hp : prev = true <;> simp [hp] <;> omega
        · have hv' : v = true := by cases v <;> simp_all
          subst hv'
          simp
          omega

/-! ## Claim theorems: browser session manager -/

/-- C4 counterexample: with a live context handle recorded, a raising
`is_closed()` probe does not leave the manager untouched — the state
changes (the old context is discarded and a fresh one launched), refuting
"treats the session as alive and returns without discarding or recreating
it". -/
theorem ensureBrowser_probe_failure_not_alive :
    ¬ ensureBrowser ⟨some 0, 1⟩ Probe.isClosedRaises = ⟨some 0, 1⟩ := by
  decide

/-- C4 amended: when the is-closed probe raises (either the `is_closed()`
call or the fallback `pages` access), `ensure_browser` swallows the error
but treats the session as dead: it resets the old context and launches a
fresh one. -/
theorem ensureBrowser_probe_failure_recreates (s : BMState) (cid : Nat)
    (hctx : s.context = some cid) :
    ensureBrowser s Probe.isClosedRaises
        = { context := some s.nextId, nextId := s.nextId + 1 } ∧
      ensureBrowser s Probe.pagesRaises
        = { context := some s.nextId, nextId := s.nextId + 1 } := by
  unfold ensureBrowser
  rw [hctx]
  exact ⟨rfl, rfl⟩

/-- Witness for the amended C4 at a concrete live-context state. -/
theorem ensureBrowser_probe_failure_recreates_witness :
    ensureBrowser ⟨some 7, 8⟩ Probe.isClosedRaises
        = { context := some (8 : Nat), nextId := (9 : Nat) } ∧
      ensureBrowser ⟨some 7, 8⟩ Probe.pagesRaises
        = { context := some (8 : Nat), nextId := (9 : Nat) } :=
  ensureBrowser_probe_failure_recreates ⟨some 7, 8⟩ 7 rfl

theorem openAttempts_newPage_le_two (e₁ e₂ : AttemptEnv) :
    openAttempts (newPage e₁ e₂).1 ≤ 2 := by
  rcases e₁ with ⟨p₁, o₁⟩
  rcases e₂ with ⟨p₂, o₂⟩
  cases p₁ <;> cases o₁ <;> cases p₂ <;> cases o₂ <;>
    simp [newPage, newPageAttempt, openAttempts, List.countP_cons]

/-- C5: `new_page` makes at most two page-open attempts per call; after a
first attempt that found no reusable page and failed with
`TargetClosedError`, it resets the session and runs the whole
ensure-then-open sequence exactly once more; if that second attempt fails
the same way, the call ends in the fatal "browser closed" `RuntimeError`
instead of retrying further. -/
theorem newPage_retry_once (e₁ e₂ : AttemptEnv)
    (h₁ : e₁.pages = []) (hfail : e₁.openResult = OpenResult.targetClosed) :
    (∀ f₁ f₂ : AttemptEnv, openAttempts (newPage f₁ f₂).1 ≤ 2) ∧
    (newPage e₁ e₂).1
      = [PageAction.ensureSession, PageAction.openAttempt, PageAction.resetSession]
          ++ (newPageAttempt e₂).1 ∧
    (e₂.pages = [] → e₂.openResult = OpenResult.targetClosed →
      (newPage e₁ e₂).2 = PageResult.fatal) := by
  refine ⟨openAttempts_newPage_le_two, ?_, ?_⟩ <;>
  · rcases e₁ with ⟨p₁, o₁⟩
    simp only at h₁ hfail
    subst h₁
    subst hfail
    rcases e₂ with ⟨p₂, o₂⟩
    cases p₂ <;> cases o₂ <;> simp [newPage, newPageAttempt]

/-- Witness for C5: both attempts fail with `TargetClosedError`; the call
makes two attempts, resets between them, and ends fatally. -/
theorem newPage_retry_once_witness :
    (∀ f₁ f₂ : AttemptEnv, openAttempts (newPage f₁ f₂).1 ≤ 2) ∧
    (newPage ⟨[], OpenResult.targetClosed⟩ ⟨[], OpenResult.targetClosed⟩).1
      = [PageAction.ensureSession, PageAction.openAttempt, PageAction.resetSession]
          ++ (newPageAttempt ⟨[], OpenResult.targetClosed⟩).1 ∧
    ((⟨[], OpenResult.targetClosed⟩ : AttemptEnv).pages = [] →
      (⟨[], OpenResult.targetClosed⟩ : AttemptEnv).openResult = OpenResult.targetClosed →
      (newPage ⟨[], OpenResult.targetClosed⟩ ⟨[], OpenResult.targetClosed⟩).2
        = PageResult.fatal) :=
  newPage_retry_once ⟨[], OpenResult.targetClosed⟩ ⟨[], OpenResult.targetClosed⟩ rfl rfl

/-! ## Claim theorems: data storage -/

theorem map_url_of_url_preserved (t : List ItemRow) (f : ItemRow → ItemRow)
    (hf : ∀ r, (f r).item_url = r.item_url) :
    (t.map f).map ItemRow.item_url = t.map ItemRow.item_url := by
  induction t with
  | nil => rfl
  | cons r rest ih => simp [List.map_cons, hf r, ih]

theorem urls_upsert_pos (t : List ItemRow) (i : ItemInput) (now : Int)
    (hmem : t.any (fun r => r.item_url = i.item_url) = true) :
    (insert_or_update_item t i now).map ItemRow.item_url = t.map ItemRow.item_url := by
  unfold insert_or_update_item
  rw [if_pos hmem]
  exact map_url_of_url_preserved t _
    (fun r => by by_cases hr : r.item_url = i.item_url <;> simp [hr])

theorem urls_upsert_neg (t : List ItemRow) (i : ItemInput) (now : Int)
    (hmem : ¬ t.any (fun r => r.item_url = i.item_url) = true) :
    (insert_or_update_item t i now).map ItemRow.item_url
      = t.map ItemRow.item_url ++ [i.item_url] := by
  unfold insert_or_update_item
  rw [if_neg hmem]
  simp

theorem mem_urls_upsert (t : List ItemRow) (i : ItemInput) (now : Int) :
    i.item_url ∈ (insert_or_update_item t i now).map ItemRow.item_url := by
  by_cases hmem : t.any (fun r => r.item_url = i.item_url) = true
  · rw [urls_upsert_pos t i now hmem]
    rcases List.any_eq_true.mp hmem with ⟨r, hr, hpred⟩
    simp only [decide_eq_true_eq] at hpred
    exact hpred ▸ List.mem_map_of_mem ItemRow.item_url hr
  · rw [urls_upsert_neg t i now hmem]
    simp

theorem urlsUnique_upsert (t : List ItemRow) (i : ItemInput) (now : Int)
    (h : UrlsUnique t) : UrlsUnique (insert_or_update_item t i now) := by
  by_cases hmem : t.any (fun r => r.item_url = i.item_url) = true
  · unfold UrlsUnique
    rw [urls_upsert_pos t i now hmem]
    exact h
  · unfold UrlsUnique
    rw [urls_upsert_neg t i now hmem]
    have hni : i.item_url ∉ t.map ItemRow.item_url := by
      intro hmem'
      rcases List.mem_map.mp hmem' with ⟨r, hr, hu⟩
      exact hmem (List.any_eq_true.mpr ⟨r, hr, by simp [hu]⟩)
    unfold UrlsUnique at h
    simp [List.nodup_append, h, hni]

theorem rowsForUrl_length_one (t : List ItemRow) (u : String)
    (hnd : UrlsUnique t) (hmem : u ∈ t.map ItemRow.item_url) :
    (rowsForUrl t u).length = 1 := by
  induction t with
  | nil => simp at hmem
  | cons r rest ih =>
      unfold UrlsUnique at hnd
      rw [List.map_cons, List.nodup_cons] at hnd
      unfold rowsForUrl
      rw [List.filter_cons]
      by_cases hr : r.item_url = u
      · rw [if_pos (decide_eq_true hr)]
        have hnil : rest.filter (fun x => x.item_url = u) = [] := by
          rw [List.filter_eq_nil_iff]
          intro x hx
          simp only [decide_eq_true_eq]
          intro hxu
          apply hnd.1
          have hxm : x.item_url ∈ rest.map ItemRow.item_url :=
            List.mem_map_of_mem ItemRow.item_url hx
          rwa [hxu, ← hr] at hxm
        simp [hnil]
      · rw [if_neg (by simp [hr])]
        apply ih hnd.2
        rcases List.mem_cons.mp hmem with h | h
        · exact absurd h.symm hr
        · exact h

theorem counters_upsert_pos (t : List ItemRow) (i : ItemInput) (now : Int)
    (hmem : t.any (fun r => r.item_url = i.item_url) = true) :
    ∀ r ∈ insert_or_update_item t i now, r.item_url = i.item_url →
      r.like_count = i.like_count ∧ r.collect_count = i.collect_count ∧
        r.comment_count = i.comment_count := by
  unfold insert_or_update_item
  rw [if_pos hmem]
  intro r hr hu
  rcases List.mem_map.mp hr with ⟨r₀, hr₀, hmap⟩
  by_cases h₀ : r₀.item_url = i.item_url
  · rw [← hmap]
    simp [h₀]
  · rw [← hmap] at hu
    rw [if_neg h₀] at hu
    exact absurd hu h₀

/-- C6: upserting two items with the same URL (and different counters)
into a table satisfying the `UNIQUE(item_url)` constraint leaves exactly
one row for that URL, and that row carries the counters of the latest
upsert. -/
theorem upsert_same_url_twice (t : List ItemRow) (a b : ItemInput) (n₁ n₂ : Int)
    (hnd : UrlsUnique t) (hab : a.item_url = b.item_url) :
    (rowsForUrl (insert_or_update_item (insert_or_update_item t a n₁) b n₂)
        b.item_url).length = 1 ∧
    ∀ r ∈ insert_or_update_item (insert_or_update_item t a n₁) b n₂,
      r.item_url = b.item_url →
        r.like_count = b.like_count ∧ r.collect_count = b.collect_count ∧
          r.comment_count = b.comment_count := by
  have h1nd : UrlsUnique (insert_or_update_item t a n₁) := urlsUnique_upsert t a n₁ hnd
  have h1mem : b.item_url ∈ (insert_or_update_item t a n₁).map ItemRow.item_url :=
    hab ▸ mem_urls_upsert t a n₁
  have h2any : (insert_or_update_item t a n₁).any (fun r => r.item_url = b.item_url) = true := by
    rcases List.mem_map.mp h1mem with ⟨r, hr, hu⟩
    exact List.any_eq_true.mpr ⟨r, hr, by simp [hu]⟩
  refine ⟨?_, counters_upsert_pos (insert_or_update_item t a n₁) b n₂ h2any⟩
  exact rowsForUrl_length_one _ b.item_url
    (urlsUnique_upsert (insert_or_update_item t a n₁) b n₂ h1nd)
    (mem_urls_upsert (insert_or_update_item t a n₁) b n₂)

/-- Witness for C6: the same URL upserted twice into an empty table with
different counters. -/
theorem upsert_same_url_twice_witness :
    (rowsForUrl (insert_or_update_item (insert_or_update_item []
        { item_url := "https://www.xiaohongshu.com/n1", like_count := 1,
          collect_count := 2, comment_count := 3 } 100)
        { item_url := "https://www.xiaohongshu.com/n1", like_count := 7,
          collect_count := 8, comment_count := 9 } 200)
      "https://www.xiaohongshu.com/n1").length = 1 ∧
    ∀ r ∈ insert_or_update_item (insert_or_update_item []
        { item_url := "https://www.xiaohongshu.com/n1", like_count := 1,
          collect_count := 2, comment_count := 3 } 100)
        { item_url := "https://www.xiaohongshu.com/n1", like_count := 7,
          collect_count := 8, comment_count := 9 } 200,
      r.item_url = "https://www.xiaohongshu.com/n1" →
        r.like_count = 7 ∧ r.collect_count = 8 ∧ r.comment_count = 9 :=
  upsert_same_url_twice []
    { item_url := "https://www.xiaohongshu.com/n1", like_count := 1,
      collect_count := 2, comment_count := 3 }
    { item_url := "https://www.xiaohongshu.com/n1", like_count := 7,
      collect_count := 8, comment_count := 9 }
    100 200 (by unfold UrlsUnique; decide) rfl

/-! ## Claim theorems: collector -/

/-- C7: the space-delimited string, the comma-delimited string and the
explicit list all normalize to the identical keyword list. -/
theorem keyword_normalization_agrees :
    normalizeKeywordString "a b" = ["a", "b"] ∧
    normalizeKeywordString "a,b" = ["a", "b"] ∧
    normalizeKeywordList ["a", "b"] = ["a", "b"] := by
  decide

/-- The decimal fixed-point representation used by `pyFloat` agrees with
the exact rational value: `intOfScaled (x, k) scale` is the floor of
`(x / 10^k) * scale`. -/
theorem intOfScaled_eq_rat_floor (x k scale : ℕ) :
    (intOfScaled (x, k) scale : ℤ) = ⌊((x : ℚ) / (10 : ℚ) ^ k) * (scale : ℚ)⌋ := by
  unfold intOfScaled
  rw [div_mul_eq_mul_div]
  rw [show ((x : ℚ) * (scale : ℚ)) = (((x * scale : ℕ) : ℤ) : ℚ) by push_cast; ring,
      show ((10 : ℚ) ^ k) = (((10 ^ k : ℕ) : ℚ)) by push_cast; ring]
  rw [Rat.floor_intCast_div_natCast]
  simp

/-- C8: the numeric shorthand normalizer on the four specified inputs —
the `万` suffix means ×10000, the `k` suffix ×1000, commas are stripped,
and the empty string yields 0. -/
theorem parse_int_examples :
    _parse_int "1.2万" = some 12000 ∧ _parse_int "3k" = some 3000 ∧
    _parse_int "2,345" = some 2345 ∧ _parse_int "" = some 0 := by
  decide

/-! ## Claim theorems: listener -/

theorem findKeyword_eq_none (text : String) (kws : List String)
    (h : ∀ kw ∈ kws, kw = "" ∨ strContains text kw = false) :
    findKeyword text kws = none := by
  induction kws with
  | nil => rfl
  | cons kw rest ih =>
      unfold findKeyword
      rcases h kw (List.mem_cons_self kw rest) with h0 | h0 <;>
        rw [if_neg (by simp [h0])] <;>
        exact ih (fun k hk => h k (List.mem_cons_of_mem kw hk))

theorem matchRules_append_none (text : String) (pre rest : List RuleGroup)
    (hpre : ∀ g ∈ pre, findKeyword text g.keywords = none) :
    matchRules text (pre ++ rest) = matchRules text rest := by
  induction pre with
  | nil => rfl
  | cons g pre' ih =>
      rw [List.cons_append]
      show (match findKeyword text g.keywords with
            | some kw => some (kw, g.reply)
            | none => matchRules text (pre' ++ rest)) = matchRules text rest
      rw [hpre g (List.mem_cons_self g pre')]
      exact ih (fun g' hg' => hpre g' (List.mem_cons_of_mem g hg'))

theorem replyAttempts_le_one (text : String) (groups : List RuleGroup) :
    (replyAttempts text groups).length ≤ 1 := by
  unfold replyAttempts
  cases matchRules text groups with
  | none => simp
  | some p =>
      rcases p with ⟨kw, reply⟩
      by_cases h : ¬ reply = "" <;> simp [h]

/-- C9: rule groups are evaluated in caller-supplied order; the first
group with a non-empty keyword occurring as a substring of the comment
text supplies the matched keyword and that group's reply template — and at
most one reply is attempted per comment. -/
theorem listener_first_group_wins (text kw : String) (pre post : List RuleGroup)
    (g : RuleGroup)
    (hpre : ∀ g' ∈ pre, ∀ kw' ∈ g'.keywords, kw' = "" ∨ strContains text kw' = false)
    (hg : findKeyword text g.keywords = some kw) :
    matchRules text (pre ++ g :: post) = some (kw, g.reply) ∧
    (replyAttempts text (pre ++ g :: post)).length ≤ 1 := by
  constructor
  · rw [matchRules_append_none text pre (g :: post)
      (fun g' hg' => findKeyword_eq_none text g'.keywords (hpre g' hg'))]
    unfold matchRules
    rw [hg]
  · exact replyAttempts_le_one text (pre ++ g :: post)

/-- Witness for C9: comment "cab" against three rule groups — the first
has no matching keyword, the second matches (keyword "b", in group order),
the third is never considered. -/
theorem listener_first_group_wins_witness :
    matchRules "cab" ([⟨["x"], "rx"⟩] ++ ⟨["b", "a"], "r"⟩ :: [⟨["c"], "rc"⟩])
        = some ("b", "r") ∧
      (replyAttempts "cab" ([⟨["x"], "rx"⟩] ++ ⟨["b", "a"], "r"⟩ :: [⟨["c"], "rc"⟩])).length
        ≤ 1 :=
  listener_first_group_wins "cab" "b" [⟨["x"], "rx"⟩] [⟨["c"], "rc"⟩] ⟨["b", "a"], "r"⟩
    (by decide) (by decide)

end XhsProject
